import Mathlib

/-!
# RainfallPredictor: a shallow embedding of `src/RainfallPredictor.js`

The component keeps four pieces of view state (form values, prediction result,
loading flag, error message), edits the form values through `handleChange`,
submits them through `handleSubmit`, and draws the answer with
`renderProbabilityMeter`.

Numbers are IEEE 754 double-precision values. A finite one is carried as the
rational it equals; every operation that produces a number (`parseFloat`, `/`,
`*`) rounds its exact result to the nearest double, ties to even, with overflow
to an infinity and underflow through the subnormals to zero. The two zeros are
identified: the component never tells them apart (`-0 || 0` is `0`, and a
template literal prints both as `0`).
-/

namespace Rainfall

/-! ## Numbers -/

/-- JavaScript numbers: a finite double by its value, `NaN`, and the infinities. -/
inductive JSNum where
  | fin (q : ℚ)
  | nan
  | posInf
  | negInf
  deriving DecidableEq

namespace JSNum

/-- ToBoolean on a number: `NaN` and zero are falsy, everything else is truthy. -/
def truthy : JSNum → Bool
  | fin q => decide (q ≠ 0)
  | nan => false
  | posInf => true
  | negInf => true

/-- Sign of a non-NaN number: `-1`, `0` or `1`. -/
def sgn : JSNum → Int
  | fin q => if 0 < q then 1 else if q < 0 then -1 else 0
  | nan => 0
  | posInf => 1
  | negInf => -1

/-- The infinity carrying the given sign, `NaN` for sign zero. -/
def infOfSign (s : Int) : JSNum :=
  if 0 < s then posInf else if s < 0 then negInf else nan

/-- Negation of a number. -/
def neg : JSNum → JSNum
  | fin q => fin (-q)
  | nan => nan
  | posInf => negInf
  | negInf => posInf

end JSNum

/-- The integer nearest to `n / d`, the even one of two equally near (`d`
positive). -/
def roundHalfEven (n d : Nat) : Nat :=
  let k := n / d
  let r := n % d
  if 2 * r < d then k else if d < 2 * r then k + 1 else if k % 2 = 0 then k else k + 1

/-- Halving `n` until it is below `2`, at most `fuel` times, counting the steps. -/
def bitLogAux : Nat → Nat → Nat
  | 0, _ => 0
  | fuel + 1, n => if n < 2 then 0 else bitLogAux fuel (n / 2) + 1

/-- The position of the highest set bit of a positive `n`: `2 ^ bitLog n ≤ n <
2 ^ (bitLog n + 1)`. -/
def bitLog (n : Nat) : Nat :=
  bitLogAux n n

/-- The binary exponent of `n / d` for positive `n` and `d`: the `e` with
`2 ^ e ≤ n / d < 2 ^ (e + 1)`. -/
def floorLog2 (n d : Nat) : Int :=
  let a : Int := (bitLog n : Int) - (bitLog d : Int)
  if d * 2 ^ a.toNat ≤ n * 2 ^ (-a).toNat then a else a - 1

/-- The double nearest to the rational `q` (round to nearest, ties to even).
With `e` the binary exponent of `|q|`, held at `-1022` from below for the
subnormals, the spacing of doubles around `q` is `2 ^ (e - 52)`; `|q|` is rounded
to a whole number `m` of spacings, and a result of `2 ^ 1024` or more is an
infinity. -/
def roundDouble (q : ℚ) : JSNum :=
  if q = 0 then JSNum.fin 0
  else
    let n := q.num.natAbs
    let d := q.den
    let s := max (floorLog2 n d) (-1022) - 52
    let m := roundHalfEven (n * 2 ^ (-s).toNat) (d * 2 ^ s.toNat)
    let v : ℚ := mkRat (m * 2 ^ s.toNat : Nat) (2 ^ (-s).toNat)
    if (2 : ℚ) ^ 1024 ≤ v then (if q < 0 then JSNum.negInf else JSNum.posInf)
    else JSNum.fin (if q < 0 then -v else v)

namespace JSNum

/-- Number multiplication `x * y`: the exact product of two finite numbers,
rounded. -/
def mul (x y : JSNum) : JSNum :=
  match x, y with
  | nan, _ => nan
  | _, nan => nan
  | fin a, fin b => roundDouble (a * b)
  | fin a, posInf => infOfSign (sgn (fin a))
  | fin a, negInf => infOfSign (-(sgn (fin a)))
  | posInf, fin b => infOfSign (sgn (fin b))
  | negInf, fin b => infOfSign (-(sgn (fin b)))
  | posInf, posInf => posInf
  | posInf, negInf => negInf
  | negInf, posInf => negInf
  | negInf, negInf => posInf

/-- Number division `x / y`: the exact quotient of two finite numbers, rounded;
a zero divisor is the positive zero. -/
def div (x y : JSNum) : JSNum :=
  match x, y with
  | nan, _ => nan
  | _, nan => nan
  | fin a, fin b => if b = 0 then infOfSign (sgn (fin a)) else roundDouble (a / b)
  | fin _, posInf => fin 0
  | fin _, negInf => fin 0
  | posInf, fin b => if b < 0 then negInf else posInf
  | negInf, fin b => if b < 0 then posInf else negInf
  | posInf, posInf => nan
  | posInf, negInf => nan
  | negInf, posInf => nan
  | negInf, negInf => nan

end JSNum

/-- The expression `x || 0` on a number. -/
def orZero (x : JSNum) : JSNum :=
  if x.truthy then x else JSNum.fin 0

/-- The expression `x || 0` where `x` may be `undefined` (encoded as `none`). -/
def orZeroU : Option JSNum → JSNum
  | some x => orZero x
  | none => JSNum.fin 0

/-! ## `parseFloat` -/

/-- White space and line terminators removed by `TrimString`. -/
def isWhiteSpace (c : Char) : Bool :=
  let n := c.toNat
  n = 0x09 || n = 0x0A || n = 0x0B || n = 0x0C || n = 0x0D || n = 0x20 || n = 0xA0 ||
  n = 0x1680 || (0x2000 ≤ n && n ≤ 0x200A) || n = 0x2028 || n = 0x2029 || n = 0x202F ||
  n = 0x205F || n = 0x3000 || n = 0xFEFF

/-- A decimal digit `0`..`9`. -/
def isDigit (c : Char) : Bool :=
  48 ≤ c.toNat && c.toNat ≤ 57

/-- The longest run of decimal digits at the front, and what follows it. -/
def takeDigits : List Char → List Char × List Char
  | [] => ([], [])
  | c :: cs =>
    if isDigit c then
      let r := takeDigits cs
      (c :: r.1, r.2)
    else ([], c :: cs)

/-- Mathematical value of a run of decimal digits, most significant first. -/
def digitsValue (ds : List Char) : Nat :=
  ds.foldl (fun acc c => 10 * acc + (c.toNat - 48)) 0

/-- An optional leading sign: `true` for `-`. -/
def takeSign : List Char → Bool × List Char
  | '-' :: cs => (true, cs)
  | '+' :: cs => (false, cs)
  | cs => (false, cs)

/-- Whether `p` is a prefix of `cs`. -/
def startsWith : List Char → List Char → Bool
  | [], _ => true
  | _ :: _, [] => false
  | a :: p, c :: cs => a == c && startsWith p cs

/-- The exponent part after the mantissa: `e` or `E`, an optional sign, and at
least one digit; anything else is not part of the literal and counts as `0`. -/
def takeExponent : List Char → Int
  | c :: cs =>
    if c = 'e' ∨ c = 'E' then
      let sg := takeSign cs
      let ds := (takeDigits sg.2).1
      if ds.isEmpty then 0
      else if sg.1 then -(digitsValue ds : Int) else (digitsValue ds : Int)
    else 0
  | [] => 0

/-- The mathematical value of the mantissa `ip . fp` scaled by `10 ^ e`:
`(ip + fp / 10 ^ |fp|) * 10 ^ e`, as one fraction. -/
def decimalOf (ip fp : List Char) (e : Int) : ℚ :=
  mkRat ((digitsValue ip * 10 ^ fp.length + digitsValue fp) * 10 ^ e.toNat : Nat)
    (10 ^ (fp.length + (-e).toNat))

/-- The unsigned part of a `StrDecimalLiteral` at the front of the input:
`Infinity`, or digits with an optional fraction and exponent, whose mathematical
value is rounded to a double. -/
def parseUnsigned (cs : List Char) : JSNum :=
  if startsWith "Infinity".data cs then JSNum.posInf
  else
    let ip := takeDigits cs
    match ip.2 with
    | '.' :: rest =>
      let fp := takeDigits rest
      if ip.1.isEmpty && fp.1.isEmpty then JSNum.nan
      else roundDouble (decimalOf ip.1 fp.1 (takeExponent fp.2))
    | rest =>
      if ip.1.isEmpty then JSNum.nan
      else roundDouble (decimalOf ip.1 [] (takeExponent rest))

/-- The global `parseFloat`: leading white space is dropped, then the longest
prefix that is a `StrDecimalLiteral` is evaluated; `NaN` when there is none. A
literal of more than twenty significant digits is rounded correctly as well. -/
def parseFloat (s : String) : JSNum :=
  let sg := takeSign (s.data.dropWhile isWhiteSpace)
  let v := parseUnsigned sg.2
  if sg.1 then v.neg else v

/-- The call `s.replace('%', '')`: the first percent sign is removed. -/
def removeFirstPercent : List Char → List Char
  | [] => []
  | c :: cs => if c = '%' then cs else c :: removeFirstPercent cs

/-- The rotation angle computed at lines 96 and 99 of the source. -/
def rotationAngle (probabilityString : String) : JSNum :=
  let probability := parseFloat ⟨removeFirstPercent probabilityString.data⟩
  (probability.div (JSNum.fin 100)).mul (JSNum.fin 180)

/-! ## Objects with string keys -/

/-- A plain object: its own properties in insertion order, keys distinct. -/
abbrev Obj (α : Type) := List (String × α)

namespace Obj

/-- Property read `o[k]`; `none` encodes `undefined`. -/
def get {α : Type} : Obj α → String → Option α
  | [], _ => none
  | (k', v) :: rest, k => if k' = k then some v else get rest k

/-- Property write `o[k] = v`: an existing key keeps its place, a new key is
appended. -/
def set {α : Type} : Obj α → String → α → Obj α
  | [], k, v => [(k, v)]
  | (k', v') :: rest, k, v => if k' = k then (k, v) :: rest else (k', v') :: set rest k v

/-- The own keys `Object.keys(o)`. -/
def keys {α : Type} (o : Obj α) : List String :=
  o.map Prod.fst

end Obj

/-! ## Form state and payload -/

/-- The constant `REQUIRED_FEATURES` (lines 5 to 14). -/
def REQUIRED_FEATURES : List String :=
  ["pressure", "dewpoint", "humidity", "cloud", "sunshine", "winddirection", "windspeed"]

/-- Form State: feature name to number. -/
abbrev FormData := Obj JSNum

/-- The updater passed to `setFormData` by `handleChange` (lines 26 to 33):
`{...prevData, [name]: parseFloat(value) || 0}`. -/
def handleChange (prevData : FormData) (name value : String) : FormData :=
  Obj.set prevData name (orZero (parseFloat value))

/-- Form State after a sequence of edit events `(name, value)`, starting from
the initial `{}`. -/
def editAll (events : List (String × String)) : FormData :=
  events.foldl (fun fd e => handleChange fd e.1 e.2) []

/-- The payload built at lines 43 to 46:
`REQUIRED_FEATURES.reduce((acc, feature) => { acc[feature] = formData[feature] || 0; return acc }, {})`. -/
def buildPayload (formData : FormData) : Obj JSNum :=
  REQUIRED_FEATURES.foldl
    (fun acc feature => Obj.set acc feature (orZeroU (Obj.get formData feature))) []

/-! ## Values carried by a response body -/

/-- A value produced by `response.json()`. -/
inductive Json where
  | null
  | bool (b : Bool)
  | num (n : JSNum)
  | str (s : String)
  | arr (items : List Json)
  | obj (props : List (String × Json))

namespace Json

/-- ToBoolean on a parsed value. -/
def truthy : Json → Bool
  | null => false
  | bool b => b
  | num n => n.truthy
  | str s => s != ""
  | arr _ => true
  | obj _ => true

end Json

/-- A thrown error object; only its `message` is read. -/
structure JSError where
  message : String
  deriving DecidableEq

/-- The kinds of `TypeError` the engine raises in this component. -/
inductive Fault where
  | readOfNull
  | readOfUndefined
  | notCallable
  deriving DecidableEq

/-- What the JavaScript engine and React supply and the source does not fix: the
error objects the engine raises, `ToString` on a value that is not a string
(applied by `new Error(v)`), which may itself raise, and the error React throws
when it is handed an object as a child. -/
structure Runtime where
  typeError : Fault → JSError
  toStringOf : Json → Except JSError String
  invalidChild : JSError

/-- Property read `v.name` on a parsed value, for a name that no built-in
prototype defines (`error`, `will_rain`, `probability_of_rain`): it raises on
`null`, looks the key up on an object, and is `undefined` on anything else. -/
def readField (rt : Runtime) (v : Json) (name : String) : Except JSError (Option Json) :=
  match v with
  | Json.null => Except.error (rt.typeError Fault.readOfNull)
  | Json.obj props => Except.ok (Obj.get props name)
  | _ => Except.ok none

/-- The constructor call `new Error(v)` for a defined `v`: the message is
`ToString(v)`. -/
def newError (rt : Runtime) (v : Json) : Except JSError JSError :=
  match v with
  | Json.str s => Except.ok ⟨s⟩
  | w => (rt.toStringOf w).map JSError.mk

/-! ## View state and its updates -/

/-- The four `useState` cells of the component (lines 18 to 23). `Json.null`
and `none` encode the JavaScript `null`. -/
structure State where
  formData : FormData
  predictionResult : Json
  isLoading : Bool
  error : Option String

/-- The state on first render. -/
def State.initial : State :=
  { formData := [], predictionResult := Json.null, isLoading := false, error := none }

/-- A call of one of the state setters made by `handleSubmit`. -/
inductive Update where
  | setIsLoading (b : Bool)
  | setError (e : Option String)
  | setPredictionResult (r : Json)

/-- Effect of one setter call. -/
def applyUpdate (s : State) : Update → State
  | Update.setIsLoading b => { s with isLoading := b }
  | Update.setError e => { s with error := e }
  | Update.setPredictionResult r => { s with predictionResult := r }

/-- Effect of setter calls in the order they were made. -/
def applyUpdates (s : State) (us : List Update) : State :=
  us.foldl applyUpdate s

/-! ## `handleSubmit` -/

/-- How the awaited `fetch` ends: a rejection (no response at all), or a response
with its status and the outcome of `response.json()`. -/
inductive FetchOutcome where
  | rejected (err : JSError)
  | response (status : Nat) (body : Except JSError Json)

/-- The getter `response.ok`: the status is in `200..299`. -/
def responseOk (status : Nat) : Bool :=
  decide (200 ≤ status) && decide (status ≤ 299)

/-- The template literal at line 60 with the status interpolated. -/
def httpErrorMessage (status : Nat) : String :=
  "HTTP Error: " ++ toString status

/-- The fallback literal at line 68. -/
def connectFallback : String :=
  "Could not connect to the prediction server."

/-- The setter calls before the request is sent (lines 38 to 40). -/
def submitStartUpdates : List Update :=
  [Update.setIsLoading true, Update.setError none, Update.setPredictionResult Json.null]

/-- The `try` block after the request settles (lines 49 to 64): either the
setter calls it made, or the error it threw. -/
def tryBlock (rt : Runtime) : FetchOutcome → Except JSError (List Update)
  | FetchOutcome.rejected err => Except.error err
  | FetchOutcome.response status body =>
    if !responseOk status then
      match body with
      | Except.error e => Except.error e
      | Except.ok errorData =>
        match readField rt errorData "error" with
        | Except.error e => Except.error e
        | Except.ok none => Except.error ⟨httpErrorMessage status⟩
        | Except.ok (some v) =>
          if v.truthy then
            match newError rt v with
            | Except.error e => Except.error e
            | Except.ok err => Except.error err
          else Except.error ⟨httpErrorMessage status⟩
    else
      match body with
      | Except.error e => Except.error e
      | Except.ok data => Except.ok [Update.setPredictionResult data]

/-- The `catch` block (lines 66 to 68): `setError(err.message || "Could not connect ...")`. -/
def catchBlock (err : JSError) : List Update :=
  [Update.setError (some (if err.message != "" then err.message else connectFallback))]

/-- The `finally` block (lines 69 to 71). -/
def finallyBlock : List Update :=
  [Update.setIsLoading false]

/-- The setter calls of `handleSubmit` after the request settles. -/
def submitResolveUpdates (rt : Runtime) (outcome : FetchOutcome) : List Update :=
  (match tryBlock rt outcome with
   | Except.ok us => us
   | Except.error err => catchBlock err) ++ finallyBlock

/-- Every setter call of one run of `handleSubmit`, in order. -/
def handleSubmitUpdates (rt : Runtime) (outcome : FetchOutcome) : List Update :=
  submitStartUpdates ++ submitResolveUpdates rt outcome

/-- State once `handleSubmit` has completed, from the state it was started in. -/
def handleSubmit (rt : Runtime) (s : State) (outcome : FetchOutcome) : State :=
  applyUpdates s (handleSubmitUpdates rt outcome)

/-! ## Rendering the result -/

/-- What `renderProbabilityMeter` draws: the rotation of the fill layer, the
rotation of the needle layer, and the text in the centre. -/
structure Meter where
  fillAngle : JSNum
  needleAngle : JSNum
  value : String

/-- The function `renderProbabilityMeter` (lines 94 to 128). Only a string has a
`replace` method; any other argument makes the call at line 96 raise. -/
def renderProbabilityMeter (rt : Runtime) (probabilityString : Option Json) :
    Except JSError Meter :=
  match probabilityString with
  | some (Json.str s) =>
    Except.ok { fillAngle := rotationAngle s, needleAngle := rotationAngle s, value := s }
  | none => Except.error (rt.typeError Fault.readOfUndefined)
  | some Json.null => Except.error (rt.typeError Fault.readOfNull)
  | some _ => Except.error (rt.typeError Fault.notCallable)

/-- The comparison `v === 'Yes'`. -/
def isYes : Option Json → Bool
  | some (Json.str s) => s == "Yes"
  | _ => false

mutual
/-- Whether React accepts a parsed value as a child: text, numbers, booleans
and `null` are accepted, a list when each of its items is, an object never. -/
def Json.validChild : Json → Bool
  | Json.obj _ => false
  | Json.arr items => validChildren items
  | _ => true
/-- Whether React accepts every item of a list as a child. -/
def validChildren : List Json → Bool
  | [] => true
  | x :: xs => x.validChild && validChildren xs
end

/-- Whether React accepts a value that may be `undefined` as a child;
`undefined` is accepted. -/
def validChildU : Option Json → Bool
  | some v => v.validChild
  | none => true

/-- The result panel (lines 169 to 179). -/
structure ResultBox where
  className : String
  verdict : Option Json
  meter : Meter

/-- What the expression at lines 168 to 180 puts on the page: nothing, a bare
text, or the result panel. -/
inductive Drawn where
  | nothing
  | text (s : String)
  | box (b : ResultBox)

/-- What React draws for a falsy `predictionResult`, which `&&` hands over
unchanged: a number is printed, anything else draws nothing. -/
def drawFalsy : Json → Drawn
  | Json.num JSNum.nan => Drawn.text "NaN"
  | Json.num (JSNum.fin _) => Drawn.text "0"
  | _ => Drawn.nothing

/-- The expression `predictionResult && (...)` at lines 168 to 180. A falsy
result is handed to React as it is. Otherwise the panel is built, which calls
`renderProbabilityMeter`, and React then draws it, throwing when the child
`predictionResult.will_rain` at line 172 is not one it accepts. -/
def renderResult (rt : Runtime) (predictionResult : Json) : Except JSError Drawn :=
  if !predictionResult.truthy then Except.ok (drawFalsy predictionResult)
  else
    match readField rt predictionResult "will_rain" with
    | Except.error e => Except.error e
    | Except.ok willRain =>
      match readField rt predictionResult "probability_of_rain" with
      | Except.error e => Except.error e
      | Except.ok prob =>
        match renderProbabilityMeter rt prob with
        | Except.error e => Except.error e
        | Except.ok meter =>
          if validChildU willRain then
            Except.ok (Drawn.box
              { className :=
                  "result-box animate " ++ (if isYes willRain then "rain-bg" else "no-rain-bg")
                verdict := willRain
                meter := meter })
          else Except.error rt.invalidChild

/-! ## The component as a transition system -/

/-- The `disabled` attribute of the submit button (line 149). -/
def submitDisabled (s : State) : Bool :=
  s.isLoading

/-- The component together with the requests it has sent and not yet seen
settle, each with the payload it carries. -/
structure Component where
  view : State
  inFlight : List (Obj JSNum)

/-- The component on first render. -/
def Component.initial : Component :=
  { view := State.initial, inFlight := [] }

/-- What can happen to the component. -/
inductive Event where
  | change (name value : String)
  | submit
  | resolve (outcome : FetchOutcome)

/-- One step. A submit is possible only while the button is enabled; a resolve
needs a request in flight. -/
def step (rt : Runtime) (c : Component) : Event → Option Component
  | Event.change name value =>
    some { c with view := { c.view with formData := handleChange c.view.formData name value } }
  | Event.submit =>
    if submitDisabled c.view then none
    else some
      { view := applyUpdates c.view submitStartUpdates
        inFlight := c.inFlight ++ [buildPayload c.view.formData] }
  | Event.resolve outcome =>
    match c.inFlight with
    | [] => none
    | _ :: rest =>
      some { view := applyUpdates c.view (submitResolveUpdates rt outcome), inFlight := rest }

/-- Run a sequence of events; `none` when one of them is not possible. -/
def run (rt : Runtime) (c : Component) : List Event → Option Component
  | [] => some c
  | e :: es =>
    match step rt c e with
    | none => none
    | some c' => run rt c' es

/-- States the component can be in. -/
def Reachable (rt : Runtime) (c : Component) : Prop :=
  ∃ es : List Event, run rt Component.initial es = some c

/-- No stored value is `NaN`. -/
def NoNaN (fd : FormData) : Prop :=
  ∀ k v, Obj.get fd k = some v → v ≠ JSNum.nan

/-- The success body of the specification's example:
`{"will_rain": "Yes", "probability_of_rain": "80.00%"}`. -/
def rainBody : Json :=
  Json.obj [("will_rain", Json.str "Yes"), ("probability_of_rain", Json.str "80.00%")]

/-- The component right after the first submit of an untouched form. -/
def Component.afterFirstSubmit : Component :=
  { view := { formData := [], predictionResult := Json.null, isLoading := true, error := none }
    inFlight := [buildPayload []] }

/-- What holds of every reachable component: a request is in flight exactly
while the loading flag is set, there is never more than one, and while loading
neither an error nor a result is held. -/
def Settled (c : Component) : Prop :=
  c.inFlight.length = (if c.view.isLoading then 1 else 0) ∧
  (c.view.isLoading = true → c.view.error = none ∧ c.view.predictionResult = Json.null)

/-! ## Decimal numerals, as the specification writes them -/

/-- An optional sign in front of digits. -/
inductive Sign where
  | absent
  | plus
  | minus
  deriving DecidableEq

namespace Sign

/-- The characters of a sign. -/
def chars : Sign → List Char
  | absent => []
  | plus => ['+']
  | minus => ['-']

/-- Whether the sign is a minus. -/
def isMinus : Sign → Bool
  | minus => true
  | _ => false

end Sign

/-- The exponent part of a numeral: the letter `e` or `E`, an optional sign,
and digits. -/
structure Exponent where
  upper : Bool
  sign : Sign
  digits : List (Fin 10)

/-- A decimal numeral such as `62.20`, `100`, `-3.5`, `.5` or `1e3`: an
optional sign, the integer digits, an optional point with the digits after it,
and an optional exponent part. -/
structure Decimal where
  sign : Sign
  intDigits : List (Fin 10)
  point : Bool
  fracDigits : List (Fin 10)
  exponent : Option Exponent

/-- The character of a digit. -/
def digitChar : Fin 10 → Char
  | 0 => '0'
  | 1 => '1'
  | 2 => '2'
  | 3 => '3'
  | 4 => '4'
  | 5 => '5'
  | 6 => '6'
  | 7 => '7'
  | 8 => '8'
  | 9 => '9'

/-- The number a digit sequence denotes, most significant digit first. -/
def natOfDigits (ds : List (Fin 10)) : Nat :=
  ds.foldl (fun acc d => 10 * acc + d.val) 0

/-- The characters of a digit sequence. -/
def digitChars (ds : List (Fin 10)) : List Char :=
  ds.map digitChar

/-- The characters of the point and the digits after it. -/
def pointChars (point : Bool) (fp : List (Fin 10)) : List Char :=
  if point then '.' :: digitChars fp else []

/-- The characters of an exponent part. -/
def exponentChars : Option Exponent → List Char
  | none => []
  | some x => (if x.upper then 'E' else 'e') :: (x.sign.chars ++ digitChars x.digits)

/-- The power of ten an exponent part denotes. -/
def exponentValue : Option Exponent → Int
  | none => 0
  | some x => if x.sign.isMinus then -(natOfDigits x.digits : Int) else (natOfDigits x.digits : Int)

namespace Decimal

/-- A numeral is well formed when it has a digit before or after the point,
digits after the point only when the point is written, and a digit in its
exponent part when it has one. -/
def wellFormed (d : Decimal) : Bool :=
  (!d.intDigits.isEmpty || !d.fracDigits.isEmpty) && (d.fracDigits.isEmpty || d.point) &&
    (match d.exponent with
      | none => true
      | some x => !x.digits.isEmpty)

/-- The characters after the sign. -/
def body (d : Decimal) : List Char :=
  digitChars d.intDigits ++ (pointChars d.point d.fracDigits ++ exponentChars d.exponent)

/-- The characters of the numeral. -/
def chars (d : Decimal) : List Char :=
  d.sign.chars ++ d.body

/-- The numeral as text. -/
def text (d : Decimal) : String :=
  ⟨d.chars⟩

/-- The numeral followed by a percent sign, as in `62.20%`. -/
def percentText (d : Decimal) : String :=
  ⟨d.chars ++ ['%']⟩

/-- The rational the numeral denotes, without its sign. -/
def magnitude (d : Decimal) : ℚ :=
  ((natOfDigits d.intDigits : ℚ) +
    (natOfDigits d.fracDigits : ℚ) / (10 : ℚ) ^ d.fracDigits.length) *
      (10 : ℚ) ^ exponentValue d.exponent

/-- The rational the numeral denotes. -/
def value (d : Decimal) : ℚ :=
  if d.sign.isMinus then -d.magnitude else d.magnitude

end Decimal

/-- A character list that is empty or starts with a character satisfying `p`. -/
def HeadIs (p : Char → Prop) (cs : List Char) : Prop :=
  ∀ c r, cs = c :: r → p c

/-! ## An engine to evaluate with -/

/-- One engine, used to evaluate the model on concrete inputs: the wording of the
errors, and a `ToString` that answers for the scalar values (a number by its
integer part) and writes `[object Object]` for anything else. -/
def sampleRuntime : Runtime where
  typeError
    | Fault.readOfNull => ⟨"Cannot read properties of null"⟩
    | Fault.readOfUndefined => ⟨"Cannot read properties of undefined"⟩
    | Fault.notCallable => ⟨"probabilityString.replace is not a function"⟩
  toStringOf
    | Json.null => Except.ok "null"
    | Json.bool b => Except.ok (if b then "true" else "false")
    | Json.str s => Except.ok s
    | Json.num (JSNum.fin q) => Except.ok (toString q.floor)
    | Json.num JSNum.nan => Except.ok "NaN"
    | Json.num JSNum.posInf => Except.ok "Infinity"
    | Json.num JSNum.negInf => Except.ok "-Infinity"
    | _ => Except.ok "[object Object]"
  invalidChild := ⟨"Objects are not valid as a React child"⟩

/-! ## Facts about rounding -/

theorem bitLogAux_spec (fuel n : Nat) (hn : n ≤ fuel) (hpos : 0 < n) :
    2 ^ bitLogAux fuel n ≤ n ∧ n < 2 ^ (bitLogAux fuel n + 1) := by
  induction fuel generalizing n with
  | zero => omega
  | succ fuel ih =>
    unfold bitLogAux
    by_cases h2 : n < 2
    · simp only [h2, if_true]
      omega
    · simp only [h2, if_false]
      have h := ih (n / 2) (by omega) (by omega)
      obtain ⟨hl, hu⟩ := h
      rw [pow_succ] at hu
      rw [pow_succ, pow_succ, pow_succ]
      constructor <;> omega

theorem bitLog_spec (n : Nat) (hpos : 0 < n) :
    2 ^ bitLog n ≤ n ∧ n < 2 ^ (bitLog n + 1) :=
  bitLogAux_spec n n (Nat.le_refl n) hpos

theorem floorLog2_le (n d : Nat) (hn : 0 < n) (hd : 0 < d) (h : n ≤ 256 * d) :
    floorLog2 n d ≤ 8 := by
  have hN := (bitLog_spec n hn).1
  have hD := (bitLog_spec d hd).2
  have hlt : 2 ^ bitLog n < 2 ^ (bitLog d + 9) := by
    calc 2 ^ bitLog n ≤ n := hN
      _ ≤ 256 * d := h
      _ < 256 * 2 ^ (bitLog d + 1) := by omega
      _ = 2 ^ (bitLog d + 9) := by ring
  have hle : bitLog n < bitLog d + 9 := (Nat.pow_lt_pow_iff_right (by norm_num)).1 hlt
  unfold floorLog2
  simp only
  split <;> omega

theorem floorLog2_test (n d : Nat) (a : Int) :
    d * 2 ^ a.toNat ≤ n * 2 ^ (-a).toNat ↔ (2 : ℚ) ^ a * (d : ℚ) ≤ (n : ℚ) := by
  rcases Int.le_total 0 a with ha | ha
  · obtain ⟨k, rfl⟩ := Int.eq_ofNat_of_zero_le ha
    simp only [Int.toNat_ofNat, Int.toNat_neg_nat, pow_zero, mul_one, zpow_natCast]
    rw [mul_comm ((2 : ℚ) ^ k)]
    exact_mod_cast Iff.rfl
  · obtain ⟨k, hk⟩ := Int.eq_ofNat_of_zero_le (neg_nonneg.mpr ha)
    have ha' : a = -(k : Int) := by omega
    subst ha'
    simp only [Int.toNat_neg_nat, neg_neg, Int.toNat_ofNat, pow_zero, mul_one, zpow_neg,
      zpow_natCast]
    have h2 : (0 : ℚ) < (2 : ℚ) ^ k := by positivity
    rw [inv_mul_le_iff₀ h2, mul_comm ((2 : ℚ) ^ k)]
    exact_mod_cast Iff.rfl

theorem floorLog2_spec (n d : Nat) (hn : 0 < n) (hd : 0 < d) :
    (2 : ℚ) ^ floorLog2 n d ≤ (n : ℚ) / (d : ℚ) ∧
      (n : ℚ) / (d : ℚ) < (2 : ℚ) ^ (floorLog2 n d + 1) := by
  obtain ⟨hn1, hn2⟩ := bitLog_spec n hn
  obtain ⟨hd1, hd2⟩ := bitLog_spec d hd
  have hdq : (0 : ℚ) < (d : ℚ) := by exact_mod_cast hd
  have hn1q : (2 : ℚ) ^ bitLog n ≤ (n : ℚ) := by exact_mod_cast hn1
  have hn2q : (n : ℚ) < (2 : ℚ) ^ (bitLog n + 1) := by exact_mod_cast hn2
  have hd1q : (2 : ℚ) ^ bitLog d ≤ (d : ℚ) := by exact_mod_cast hd1
  have hd2q : (d : ℚ) < (2 : ℚ) ^ (bitLog d + 1) := by exact_mod_cast hd2
  have h2 : (2 : ℚ) ≠ 0 := by norm_num
  have hbn : (0 : ℚ) < (2 : ℚ) ^ bitLog n := by positivity
  have hbd : (0 : ℚ) < (2 : ℚ) ^ bitLog d := by positivity
  have hup : (n : ℚ) < (2 : ℚ) ^ ((bitLog n : Int) - (bitLog d : Int) + 1) * (d : ℚ) := by
    rw [zpow_add₀ h2, zpow_sub₀ h2, zpow_natCast, zpow_natCast, zpow_one]
    calc (n : ℚ) < (2 : ℚ) ^ (bitLog n + 1) := hn2q
      _ = (2 : ℚ) ^ bitLog n / (2 : ℚ) ^ bitLog d * 2 * (2 : ℚ) ^ bitLog d := by
        field_simp
        ring
      _ ≤ (2 : ℚ) ^ bitLog n / (2 : ℚ) ^ bitLog d * 2 * (d : ℚ) := by
        apply mul_le_mul_of_nonneg_left hd1q
        positivity
  have hlow : (2 : ℚ) ^ ((bitLog n : Int) - (bitLog d : Int) - 1) * (d : ℚ) ≤ (n : ℚ) := by
    rw [zpow_sub₀ h2, zpow_sub₀ h2, zpow_natCast, zpow_natCast, zpow_one]
    calc (2 : ℚ) ^ bitLog n / (2 : ℚ) ^ bitLog d / 2 * (d : ℚ)
        ≤ (2 : ℚ) ^ bitLog n / (2 : ℚ) ^ bitLog d / 2 * (2 : ℚ) ^ (bitLog d + 1) := by
          apply mul_le_mul_of_nonneg_left hd2q.le
          positivity
      _ = (2 : ℚ) ^ bitLog n := by
        field_simp
        ring
      _ ≤ (n : ℚ) := hn1q
  unfold floorLog2
  simp only
  split
  · rename_i hc
    rw [floorLog2_test n d _] at hc
    exact ⟨(le_div_iff₀ hdq).mpr hc, (div_lt_iff₀ hdq).mpr hup⟩
  · rename_i hc
    rw [floorLog2_test n d _, not_le] at hc
    refine ⟨(le_div_iff₀ hdq).mpr hlow, (div_lt_iff₀ hdq).mpr ?_⟩
    rw [sub_add_cancel]
    exact hc

theorem roundHalfEven_near (n d : Nat) (hd : 0 < d) :
    2 * ((roundHalfEven n d * d : Nat) - (n : Int)).natAbs ≤ d := by
  have hdm := Nat.div_add_mod n d
  have hlt := Nat.mod_lt n hd
  have hk : (n / d + 1) * d = d * (n / d) + d := by ring
  have hk0 : n / d * d = d * (n / d) := by ring
  unfold roundHalfEven
  simp only
  split
  · rw [hk0]
    omega
  · split
    · rw [hk]
      omega
    · split
      · rw [hk0]
        omega
      · rw [hk]
        omega

theorem roundHalfEven_le (n d K : Nat) (hd : 0 < d) (h : n ≤ K * d) :
    roundHalfEven n d ≤ K := by
  have hk : n / d ≤ K := Nat.div_le_of_le_mul (by rw [Nat.mul_comm]; exact h)
  have hdm := Nat.div_add_mod n d
  have hstep : ¬ (2 * (n % d) < d) → n / d + 1 ≤ K := by
    intro hr
    by_contra hc
    have hK : n / d = K := by omega
    rw [hK] at hdm
    have : d * K + n % d ≤ K * d := by rw [hdm]; exact h
    rw [Nat.mul_comm d K] at this
    omega
  unfold roundHalfEven
  simp only
  split
  · exact hk
  · rename_i h1
    split
    · exact hstep h1
    · split
      · exact hk
      · exact hstep h1

theorem roundDouble_ne_nan (q : ℚ) : roundDouble q ≠ JSNum.nan := by
  unfold roundDouble
  simp only
  split
  · simp
  · split
    · split <;> simp
    · simp

theorem roundDouble_neg (q : ℚ) : roundDouble (-q) = (roundDouble q).neg := by
  by_cases hq : q = 0
  · subst hq
    simp [roundDouble, JSNum.neg]
  · have hq' : -q ≠ 0 := neg_ne_zero.mpr hq
    unfold roundDouble
    simp only [hq, hq', if_false, Rat.neg_num, Rat.neg_den, Int.natAbs_neg]
    by_cases hneg : q < 0
    · have hpos : ¬ (-q < 0) := by
        intro h
        have := neg_neg_iff_pos.mp h
        exact absurd hneg (not_lt.mpr this.le)
      simp only [hneg, hpos, if_true, if_false]
      split <;> simp [JSNum.neg]
    · have hpos : -q < 0 := by
        have : 0 < q := lt_of_le_of_ne (not_lt.mp hneg) (Ne.symm hq)
        exact neg_neg_iff_pos.mpr this
      simp only [hneg, hpos, if_true, if_false]
      split <;> simp [JSNum.neg]

theorem roundDouble_bounds (q : ℚ) (B : Nat) (hB : B ≤ 256) (h0 : 0 ≤ q) (hq : q ≤ B) :
    ∃ v : ℚ, roundDouble q = JSNum.fin v ∧ 0 ≤ v ∧ v ≤ B := by
  by_cases hz : q = 0
  · subst hz
    exact ⟨0, by simp [roundDouble], le_refl _, by exact_mod_cast Nat.zero_le B⟩
  · have hpos : 0 < q := lt_of_le_of_ne h0 (Ne.symm hz)
    have hnum : 0 < q.num := Rat.num_pos.mpr hpos
    have hden : 0 < q.den := q.den_pos
    have hnat : (q.num.natAbs : Int) = q.num := Int.natAbs_of_nonneg hnum.le
    have hn : 0 < q.num.natAbs := by omega
    have hqeq : q = (q.num.natAbs : ℚ) / (q.den : ℚ) := by
      have h1 : ((q.num.natAbs : Int) : ℚ) = (q.num : ℚ) := by rw [hnat]
      rw [← Int.cast_natCast, h1]
      exact (Rat.num_div_den q).symm
    have hle : q.num.natAbs ≤ B * q.den := by
      have hdq : (0 : ℚ) < (q.den : ℚ) := by exact_mod_cast hden
      have h1 : (q.num.natAbs : ℚ) / (q.den : ℚ) ≤ (B : ℚ) := by rw [← hqeq]; exact hq
      have h2 : (q.num.natAbs : ℚ) ≤ (B : ℚ) * (q.den : ℚ) := (div_le_iff₀ hdq).mp h1
      exact_mod_cast h2
    have hfl : floorLog2 q.num.natAbs q.den ≤ 8 :=
      floorLog2_le _ _ hn hden (le_trans hle (Nat.mul_le_mul_right _ hB))
    obtain ⟨k, hk⟩ : ∃ k : Nat, max (floorLog2 q.num.natAbs q.den) (-1022) - 52 = -(k : Int) := by
      refine ⟨(-(max (floorLog2 q.num.natAbs q.den) (-1022) - 52)).toNat, ?_⟩
      have : max (floorLog2 q.num.natAbs q.den) (-1022) ≤ 8 := max_le hfl (by norm_num)
      omega
    have hm : roundHalfEven (q.num.natAbs * 2 ^ k) (q.den * 1) ≤ B * 2 ^ k := by
      apply roundHalfEven_le _ _ _ (by omega)
      calc q.num.natAbs * 2 ^ k ≤ (B * q.den) * 2 ^ k := Nat.mul_le_mul_right _ hle
        _ = B * 2 ^ k * (q.den * 1) := by ring
    have hv : mkRat ((roundHalfEven (q.num.natAbs * 2 ^ k) (q.den * 1) * 1 : Nat) : Int) (2 ^ k)
        = (roundHalfEven (q.num.natAbs * 2 ^ k) (q.den * 1) : ℚ) / (2 : ℚ) ^ k := by
      rw [Rat.mkRat_eq_div]
      push_cast
      ring
    have h2k : (0 : ℚ) < (2 : ℚ) ^ k := by positivity
    have hvle : (roundHalfEven (q.num.natAbs * 2 ^ k) (q.den * 1) : ℚ) / (2 : ℚ) ^ k ≤ (B : ℚ) := by
      rw [div_le_iff₀ h2k]
      exact_mod_cast hm
    have hv0 : (0 : ℚ) ≤ (roundHalfEven (q.num.natAbs * 2 ^ k) (q.den * 1) : ℚ) / (2 : ℚ) ^ k := by
      positivity
    refine ⟨(roundHalfEven (q.num.natAbs * 2 ^ k) (q.den * 1) : ℚ) / (2 : ℚ) ^ k, ?_, hv0, hvle⟩
    unfold roundDouble
    simp only [hz, if_false, hk, Int.toNat_neg_nat, neg_neg, Int.toNat_ofNat, pow_zero]
    rw [hv]
    have hno : ¬ ((2 : ℚ) ^ 1024 ≤
        (roundHalfEven (q.num.natAbs * 2 ^ k) (q.den * 1) : ℚ) / (2 : ℚ) ^ k) := by
      intro hc
      have hB' : (B : ℚ) ≤ 256 := by exact_mod_cast hB
      have : (2 : ℚ) ^ 1024 ≤ 256 := le_trans hc (le_trans hvle hB')
      norm_num at this
    simp only [hno, if_false, not_lt.mpr h0]

theorem decimalOf_eq (ip fp : List Char) (e : Int) :
    decimalOf ip fp e =
      ((digitsValue ip : ℚ) + (digitsValue fp : ℚ) / (10 : ℚ) ^ fp.length) * (10 : ℚ) ^ e := by
  unfold decimalOf
  rw [Rat.mkRat_eq_div]
  have h10 : ((10 : ℚ) ^ fp.length) ≠ 0 := by positivity
  rcases Int.le_total 0 e with he | he
  · obtain ⟨k, rfl⟩ := Int.eq_ofNat_of_zero_le he
    simp only [Int.toNat_ofNat, Int.toNat_neg_nat, add_zero, zpow_natCast]
    push_cast
    field_simp
  · obtain ⟨k, hk⟩ := Int.eq_ofNat_of_zero_le (neg_nonneg.mpr he)
    have he' : e = -(k : Int) := by omega
    subst he'
    simp only [Int.toNat_neg_nat, neg_neg, Int.toNat_ofNat, pow_zero, mul_one, zpow_neg,
      zpow_natCast]
    push_cast
    rw [pow_add]
    field_simp

/-! ## Facts about `parseFloat` on decimal numerals -/

theorem isDigit_digitChar (d : Fin 10) : isDigit (digitChar d) = true := by
  revert d; decide

theorem digitChar_toNat (d : Fin 10) : (digitChar d).toNat - 48 = d.val := by
  revert d; decide

theorem digitChar_not_special (d : Fin 10) :
    digitChar d ≠ '%' ∧ digitChar d ≠ '-' ∧ digitChar d ≠ '+' ∧ digitChar d ≠ '.' ∧
      digitChar d ≠ 'I' ∧ isWhiteSpace (digitChar d) = false := by
  revert d; decide

theorem HeadIs_nil (p : Char → Prop) : HeadIs p [] := by
  intro c r h
  cases h

theorem HeadIs_cons (p : Char → Prop) (c : Char) (r : List Char) (h : p c) :
    HeadIs p (c :: r) := by
  intro c' r' e
  injection e with e1 _
  subst e1
  exact h

theorem takeDigits_digits (ds : List (Fin 10)) (rest : List Char)
    (h : HeadIs (fun c => isDigit c = false) rest) :
    takeDigits (digitChars ds ++ rest) = (digitChars ds, rest) := by
  induction ds with
  | nil =>
    cases rest with
    | nil => rfl
    | cons c r => simp [digitChars, takeDigits, h c r rfl]
  | cons d ds ih =>
    simp only [digitChars] at ih
    simp [digitChars, takeDigits, isDigit_digitChar, ih]

theorem digitsValue_foldl (ds : List (Fin 10)) (a : Nat) :
    (ds.map digitChar).foldl (fun acc c => 10 * acc + (c.toNat - 48)) a =
      ds.foldl (fun acc d => 10 * acc + d.val) a := by
  induction ds generalizing a with
  | nil => rfl
  | cons d ds ih => simp [List.foldl, digitChar_toNat, ih]

theorem digitsValue_digits (ds : List (Fin 10)) :
    digitsValue (digitChars ds) = natOfDigits ds :=
  digitsValue_foldl ds 0

theorem digitChars_isEmpty (ds : List (Fin 10)) :
    (digitChars ds).isEmpty = ds.isEmpty := by
  cases ds <;> rfl

theorem digitChars_length (ds : List (Fin 10)) : (digitChars ds).length = ds.length := by
  simp [digitChars]

theorem takeSign_plain (cs : List Char) (h : HeadIs (fun c => c ≠ '-' ∧ c ≠ '+') cs) :
    takeSign cs = (false, cs) := by
  unfold takeSign
  split
  · rename_i r
    exact absurd rfl (h _ _ rfl).1
  · rename_i r
    exact absurd rfl (h _ _ rfl).2
  · rfl

theorem takeSign_sign (s : Sign) (cs : List Char) (h : HeadIs (fun c => c ≠ '-' ∧ c ≠ '+') cs) :
    takeSign (s.chars ++ cs) = (s.isMinus, cs) := by
  cases s with
  | absent => exact takeSign_plain cs h
  | plus => rfl
  | minus => rfl

theorem HeadIs_digitChars_append (p : Char → Prop) (ds : List (Fin 10)) (rest : List Char)
    (hd : ∀ d, p (digitChar d)) (hr : HeadIs p rest) : HeadIs p (digitChars ds ++ rest) := by
  cases ds with
  | nil => exact hr
  | cons d ds => exact HeadIs_cons p _ _ (hd d)

theorem HeadIs_exponentChars (p : Char → Prop) (x : Option Exponent) (he : p 'e')
    (hE : p 'E') : HeadIs p (exponentChars x) := by
  cases x with
  | none => exact HeadIs_nil p
  | some x =>
    obtain ⟨up, sg, ds⟩ := x
    cases up
    · exact HeadIs_cons p _ _ he
    · exact HeadIs_cons p _ _ hE

theorem HeadIs_pointChars_append (p : Char → Prop) (point : Bool) (fp : List (Fin 10))
    (rest : List Char) (hp : p '.') (hr : HeadIs p rest) :
    HeadIs p (pointChars point fp ++ rest) := by
  cases point with
  | false => exact hr
  | true => exact HeadIs_cons p _ _ hp

theorem takeExponent_exponentChars (x : Option Exponent)
    (hx : ∀ y, x = some y → y.digits ≠ []) :
    takeExponent (exponentChars x) = exponentValue x := by
  cases x with
  | none => rfl
  | some y =>
    have hne := hx y rfl
    obtain ⟨d, ds, hds⟩ := List.exists_cons_of_ne_nil hne
    have hhead : HeadIs (fun c => c ≠ '-' ∧ c ≠ '+') (digitChars y.digits ++ []) := by
      apply HeadIs_digitChars_append
      · intro d
        exact ⟨(digitChar_not_special d).2.1, (digitChar_not_special d).2.2.1⟩
      · exact HeadIs_nil _
    have hsign : takeSign (y.sign.chars ++ digitChars y.digits) =
        (y.sign.isMinus, digitChars y.digits) := by
      have := takeSign_sign y.sign (digitChars y.digits ++ []) hhead
      simpa using this
    have htd : takeDigits (digitChars y.digits) = (digitChars y.digits, []) := by
      have := takeDigits_digits y.digits [] (HeadIs_nil _)
      simpa using this
    have hemp : (digitChars y.digits).isEmpty = false := by
      rw [digitChars_isEmpty, hds]
      rfl
    have hc : ∀ c : Char, (c = 'e' ∨ c = 'E') →
        takeExponent (c :: (y.sign.chars ++ digitChars y.digits)) = exponentValue (some y) := by
      intro c hc
      unfold takeExponent
      simp only [hc, if_true, hsign, htd, hemp, Bool.false_eq_true, if_false,
        digitsValue_digits, exponentValue]
    obtain ⟨up, sg, ds⟩ := y
    cases up
    · exact hc 'e' (Or.inl rfl)
    · exact hc 'E' (Or.inr rfl)

theorem startsWith_infinity_of_head (cs : List Char) (hne : cs ≠ [])
    (h : HeadIs (fun c => c ≠ 'I') cs) : startsWith "Infinity".data cs = false := by
  obtain ⟨c, r, rfl⟩ := List.exists_cons_of_ne_nil hne
  have hI : ('I' == c) = false := by
    have := h c r rfl
    simpa [beq_eq_false_iff_ne] using fun e => this e.symm
  show startsWith ('I' :: _) (c :: r) = false
  simp [startsWith, hI]

theorem parseUnsigned_point (cs ip fp r1 rest : List Char)
    (hI : startsWith "Infinity".data cs = false)
    (h1 : takeDigits cs = (ip, '.' :: r1)) (h2 : takeDigits r1 = (fp, rest))
    (hne : (ip.isEmpty && fp.isEmpty) = false) :
    parseUnsigned cs = roundDouble (decimalOf ip fp (takeExponent rest)) := by
  unfold parseUnsigned
  simp only [hI, Bool.false_eq_true, if_false, h1, h2, hne]

theorem parseUnsigned_plain (cs ip rest : List Char)
    (hI : startsWith "Infinity".data cs = false)
    (h1 : takeDigits cs = (ip, rest)) (hrest : HeadIs (fun c => c ≠ '.') rest)
    (hne : ip.isEmpty = false) :
    parseUnsigned cs = roundDouble (decimalOf ip [] (takeExponent rest)) := by
  unfold parseUnsigned
  simp only [hI, Bool.false_eq_true, if_false, h1, hne]
  split
  · rename_i r
    exact absurd rfl (hrest _ _ rfl)
  · rfl

theorem Decimal.body_ne_nil (d : Decimal) (h : d.wellFormed = true) : d.body ≠ [] := by
  obtain ⟨sg, ip, pt, fp, ex⟩ := d
  simp only [Decimal.wellFormed, Bool.and_eq_true, Bool.or_eq_true, Bool.not_eq_true'] at h
  obtain ⟨⟨h1, h2⟩, _⟩ := h
  cases ip with
  | cons i is => simp [Decimal.body, digitChars]
  | nil =>
    cases fp with
    | nil => simp at h1
    | cons f fs =>
      have hpt : pt = true := by simpa using h2
      subst hpt
      simp [Decimal.body, digitChars, pointChars]

theorem Decimal.body_head (d : Decimal) (p : Char → Prop) (hd : ∀ d, p (digitChar d))
    (hp : p '.') (he : p 'e') (hE : p 'E') : HeadIs p d.body := by
  unfold Decimal.body
  apply HeadIs_digitChars_append p _ _ hd
  apply HeadIs_pointChars_append p _ _ _ hp
  exact HeadIs_exponentChars p _ he hE

theorem parseUnsigned_body (d : Decimal) (h : d.wellFormed = true) :
    parseUnsigned d.body = roundDouble d.magnitude := by
  have hI : startsWith "Infinity".data d.body = false :=
    startsWith_infinity_of_head _ (Decimal.body_ne_nil d h)
      (Decimal.body_head d _ (fun x => (digitChar_not_special x).2.2.2.2.1) (by decide)
        (by decide) (by decide))
  obtain ⟨sg, ip, pt, fp, ex⟩ := d
  have hwf := h
  simp only [Decimal.wellFormed, Bool.and_eq_true, Bool.or_eq_true, Bool.not_eq_true'] at hwf
  obtain ⟨⟨h1, h2⟩, h3⟩ := hwf
  have hex : ∀ y, ex = some y → y.digits ≠ [] := by
    intro y hy
    subst hy
    intro hc
    simp [hc] at h3
  have hexp := takeExponent_exponentChars ex hex
  have hexhead : HeadIs (fun c => isDigit c = false) (exponentChars ex) :=
    HeadIs_exponentChars _ ex (by decide) (by decide)
  cases pt with
  | true =>
    have htd1 : takeDigits (Decimal.body ⟨sg, ip, true, fp, ex⟩) =
        (digitChars ip, '.' :: (digitChars fp ++ exponentChars ex)) := by
      apply takeDigits_digits
      exact HeadIs_cons _ _ _ (by decide)
    have htd2 : takeDigits (digitChars fp ++ exponentChars ex) =
        (digitChars fp, exponentChars ex) := takeDigits_digits fp _ hexhead
    have hne : ((digitChars ip).isEmpty && (digitChars fp).isEmpty) = false := by
      rw [digitChars_isEmpty, digitChars_isEmpty]
      rcases h1 with h1 | h1 <;> simp [h1]
    rw [parseUnsigned_point _ _ _ _ _ hI htd1 htd2 hne, decimalOf_eq, hexp,
      digitsValue_digits, digitsValue_digits, digitChars_length]
    rfl
  | false =>
    have hfp : fp = [] := by
      rcases h2 with h2 | h2
      · simpa using h2
      · cases h2
    subst hfp
    have hip : ip.isEmpty = false := by
      rcases h1 with h1 | h1
      · exact h1
      · simp at h1
    have htd1 : takeDigits (Decimal.body ⟨sg, ip, false, [], ex⟩) =
        (digitChars ip, exponentChars ex) := by
      show takeDigits (digitChars ip ++ ([] ++ exponentChars ex)) = _
      rw [List.nil_append]
      exact takeDigits_digits ip _ hexhead
    have hrest : HeadIs (fun c => c ≠ '.') (exponentChars ex) :=
      HeadIs_exponentChars _ ex (by decide) (by decide)
    have hne : (digitChars ip).isEmpty = false := by
      rw [digitChars_isEmpty, hip]
    rw [parseUnsigned_plain _ _ _ hI htd1 hrest hne, decimalOf_eq, hexp, digitsValue_digits]
    simp [Decimal.magnitude, digitsValue, natOfDigits]

theorem parseFloat_decimal (d : Decimal) (h : d.wellFormed = true) :
    parseFloat d.text = roundDouble d.value := by
  have hbody := parseUnsigned_body d h
  have hne := Decimal.body_ne_nil d h
  have hhead : HeadIs (fun c => c ≠ '-' ∧ c ≠ '+') d.body :=
    Decimal.body_head d _
      (fun x => ⟨(digitChar_not_special x).2.1, (digitChar_not_special x).2.2.1⟩)
      (by decide) (by decide) (by decide)
  have hws : HeadIs (fun c => isWhiteSpace c = false) d.body :=
    Decimal.body_head d _ (fun x => (digitChar_not_special x).2.2.2.2.2)
      (by decide) (by decide) (by decide)
  have hdrop : List.dropWhile isWhiteSpace d.chars = d.chars := by
    unfold Decimal.chars
    cases d.sign with
    | absent =>
      obtain ⟨c, r, hcr⟩ := List.exists_cons_of_ne_nil hne
      have := hws c r hcr
      simp [Sign.chars, hcr, List.dropWhile, this]
    | plus => rfl
    | minus => rfl
  have hsign : takeSign d.chars = (d.sign.isMinus, d.body) := takeSign_sign d.sign d.body hhead
  show (let sg := takeSign (List.dropWhile isWhiteSpace d.chars)
    if sg.1 = true then (parseUnsigned sg.2).neg else parseUnsigned sg.2) = _
  simp only [hdrop, hsign, hbody]
  unfold Decimal.value
  cases d.sign.isMinus with
  | true => simp [roundDouble_neg]
  | false => simp

theorem removeFirstPercent_append (cs : List Char) (h : '%' ∉ cs) :
    removeFirstPercent (cs ++ ['%']) = cs := by
  induction cs with
  | nil => rfl
  | cons c cs ih =>
    have hc : c ≠ '%' := fun e => h (by simp [e])
    have hcs : '%' ∉ cs := fun e => h (by simp [e])
    simp [removeFirstPercent, hc, ih hcs]

theorem percent_not_mem_digitChars (ds : List (Fin 10)) : '%' ∉ digitChars ds := by
  intro h
  simp only [digitChars, List.mem_map] at h
  obtain ⟨d, _, hd⟩ := h
  exact (digitChar_not_special d).1 hd

theorem percent_not_mem_chars (d : Decimal) : '%' ∉ d.chars := by
  obtain ⟨sg, ip, pt, fp, ex⟩ := d
  have hs : '%' ∉ sg.chars := by cases sg <;> decide
  have hi := percent_not_mem_digitChars ip
  have hf : '%' ∉ pointChars pt fp := by
    cases pt with
    | false => simp [pointChars]
    | true =>
      have := percent_not_mem_digitChars fp
      simp [pointChars, this]
  have he : '%' ∉ exponentChars ex := by
    cases ex with
    | none => simp [exponentChars]
    | some y =>
      obtain ⟨up, sg, ds⟩ := y
      have h1 : '%' ∉ sg.chars := by cases sg <;> decide
      have h2 := percent_not_mem_digitChars ds
      cases up <;> simp [exponentChars, h1, h2]
  simp [Decimal.chars, Decimal.body, hs, hi, hf, he]

theorem parseFloat_percentText (d : Decimal) (h : d.wellFormed = true) :
    parseFloat ⟨removeFirstPercent d.percentText.data⟩ = roundDouble d.value := by
  show parseFloat ⟨removeFirstPercent (d.chars ++ ['%'])⟩ = _
  rw [removeFirstPercent_append _ (percent_not_mem_chars d)]
  exact parseFloat_decimal d h

theorem rotationAngle_decimal (d : Decimal) (h : d.wellFormed = true) :
    rotationAngle d.percentText =
      ((roundDouble d.value).div (JSNum.fin 100)).mul (JSNum.fin 180) := by
  show ((parseFloat ⟨removeFirstPercent d.percentText.data⟩).div (JSNum.fin 100)).mul
    (JSNum.fin 180) = _
  rw [parseFloat_percentText d h]

theorem rotationAngle_range (d : Decimal) (h : d.wellFormed = true) (h0 : 0 ≤ d.value)
    (h100 : d.value ≤ 100) :
    ∃ a : ℚ, rotationAngle d.percentText = JSNum.fin a ∧ 0 ≤ a ∧ a ≤ 180 := by
  obtain ⟨p, hp, hp0, hp100⟩ := roundDouble_bounds d.value 100 (by norm_num) h0
    (by exact_mod_cast h100)
  have hp100' : p ≤ 100 := by exact_mod_cast hp100
  obtain ⟨x, hx, hx0, hx1⟩ := roundDouble_bounds (p / 100) 1 (by norm_num)
    (by positivity) (by
      rw [div_le_iff₀ (by norm_num)]
      simpa using hp100')
  have hx1' : x ≤ 1 := by exact_mod_cast hx1
  obtain ⟨a, ha, ha0, ha180⟩ := roundDouble_bounds (x * 180) 180 (by norm_num)
    (by positivity) (by
      have : x * 180 ≤ 1 * 180 := by nlinarith
      simpa using this)
  refine ⟨a, ?_, ha0, by exact_mod_cast ha180⟩
  rw [rotationAngle_decimal d h, hp]
  have hdiv : (JSNum.fin p).div (JSNum.fin 100) = roundDouble (p / 100) := by
    simp [JSNum.div]
  rw [hdiv, hx]
  have hmul : (JSNum.fin x).mul (JSNum.fin 180) = roundDouble (x * 180) := by
    simp [JSNum.mul]
  rw [hmul, ha]

/-- How the model rounds: an integer above `2 ^ 53` loses its last bit, a huge
numeral overflows to `Infinity`, a tiny one underflows to `0`, an exponent part
is read, and angles come out as the doubles JavaScript computes. -/
theorem double_rounding_examples :
    parseFloat "9007199254740993" = JSNum.fin 9007199254740992 ∧
    parseFloat "1e400" = JSNum.posInf ∧
    parseFloat "-1e400" = JSNum.negInf ∧
    parseFloat "1e-400" = JSNum.fin 0 ∧
    parseFloat "1e3" = JSNum.fin 1000 ∧
    parseFloat ".5E+1" = JSNum.fin 5 ∧
    parseFloat "0.1" = JSNum.fin (3602879701896397 / 36028797018963968) ∧
    parseFloat "12abc" = JSNum.fin 12 ∧
    parseFloat "abc" = JSNum.nan ∧
    rotationAngle "99.99%" = JSNum.fin (49473075447595 / 274877906944) ∧
    rotationAngle "0.07%" = JSNum.fin (4539628424389461 / 36028797018963968) ∧
    rotationAngle "14.7%" = JSNum.fin (7447827883763957 / 281474976710656) ∧
    rotationAngle "80.00%" = JSNum.fin 144 := by
  decide!

/-- How the model rounds at the ends of the range and reads around a number:
the smallest subnormal, half of it and below, the largest double and the first
numeral beyond it, leading white space, and the non-finite values. -/
theorem double_range_examples :
    parseFloat "5e-324" = JSNum.fin (1 / 2 ^ 1074) ∧
    parseFloat "3e-324" = JSNum.fin (1 / 2 ^ 1074) ∧
    parseFloat "2e-324" = JSNum.fin 0 ∧
    parseFloat "1.7976931348623157e308" = JSNum.fin ((2 ^ 53 - 1) * 2 ^ 971) ∧
    parseFloat "1.7976931348623158e308" = JSNum.fin ((2 ^ 53 - 1) * 2 ^ 971) ∧
    parseFloat "1.7976931348623159e308" = JSNum.posInf ∧
    parseFloat " \t\n\u00a042" = JSNum.fin 42 ∧
    parseFloat "+7." = JSNum.fin 7 ∧
    parseFloat "." = JSNum.nan ∧
    parseFloat "" = JSNum.nan ∧
    parseFloat "-Infinity" = JSNum.negInf ∧
    rotationAngle "Infinity%" = JSNum.posInf ∧
    rotationAngle "-Infinity%" = JSNum.negInf ∧
    rotationAngle "1e308%" = JSNum.posInf ∧
    rotationAngle "soon" = JSNum.nan ∧
    rotationAngle "%50" = JSNum.fin 90 := by
  decide!

/-- How the result is drawn or refused: an object as `will_rain` makes React
throw, a list of texts is accepted, the body `0` draws the text `0`, and `null`
draws nothing. -/
theorem renderResult_examples (rt : Runtime) :
    renderResult rt
      (Json.obj [("will_rain", Json.obj []), ("probability_of_rain", Json.str "50%")]) =
        Except.error rt.invalidChild ∧
    renderResult rt
      (Json.obj [("will_rain", Json.arr [Json.str "Yes", Json.obj []]),
        ("probability_of_rain", Json.str "50%")]) = Except.error rt.invalidChild ∧
    renderResult rt
      (Json.obj [("will_rain", Json.arr [Json.str "a", Json.num (JSNum.fin 1)]),
        ("probability_of_rain", Json.str "50%")]) =
        Except.ok (Drawn.box
          { className := "result-box animate no-rain-bg"
            verdict := some (Json.arr [Json.str "a", Json.num (JSNum.fin 1)])
            meter := { fillAngle := rotationAngle "50%", needleAngle := rotationAngle "50%",
                       value := "50%" } }) ∧
    renderResult rt
      (Json.obj [("will_rain", Json.obj []), ("probability_of_rain", Json.num (JSNum.fin 50))]) =
        Except.error (rt.typeError Fault.notCallable) ∧
    renderResult rt (Json.num (JSNum.fin 0)) = Except.ok (Drawn.text "0") ∧
    renderResult rt Json.null = Except.ok Drawn.nothing ∧
    renderResult rt (Json.str "") = Except.ok Drawn.nothing ∧
    renderResult rt (Json.bool true) = Except.error (rt.typeError Fault.readOfUndefined) :=
  ⟨rfl, rfl, rfl, rfl, rfl, rfl, rfl, rfl⟩

/-! ## Facts about objects and form state -/

theorem Obj.get_set_same {α : Type} (o : Obj α) (k : String) (v : α) :
    Obj.get (Obj.set o k v) k = some v := by
  induction o with
  | nil => simp [Obj.set, Obj.get]
  | cons p rest ih =>
    obtain ⟨k', v'⟩ := p
    by_cases hk : k' = k
    · simp [Obj.set, Obj.get, hk]
    · simp [Obj.set, Obj.get, hk, ih]

theorem Obj.get_set_other {α : Type} (o : Obj α) (k j : String) (v : α) (hj : j ≠ k) :
    Obj.get (Obj.set o k v) j = Obj.get o j := by
  induction o with
  | nil => simp [Obj.set, Obj.get, Ne.symm hj]
  | cons p rest ih =>
    obtain ⟨k', v'⟩ := p
    by_cases hk : k' = k
    · subst hk
      simp [Obj.set, Obj.get, Ne.symm hj]
    · by_cases hkj : k' = j
      · subst hkj
        simp [Obj.set, Obj.get, hk]
      · simp [Obj.set, Obj.get, hk, hkj, ih]

theorem Obj.mem_keys_set {α : Type} (o : Obj α) (k j : String) (v : α) :
    j ∈ Obj.keys (Obj.set o k v) ↔ j ∈ Obj.keys o ∨ j = k := by
  induction o with
  | nil => simp [Obj.set, Obj.keys]
  | cons p rest ih =>
    obtain ⟨k', v'⟩ := p
    by_cases hk : k' = k
    · subst hk
      simp only [Obj.set, if_true, Obj.keys, List.map_cons, List.mem_cons]
      tauto
    · have ih' : j ∈ List.map Prod.fst (Obj.set rest k v) ↔ j ∈ List.map Prod.fst rest ∨ j = k := ih
      simp only [Obj.set, hk, if_false, Obj.keys, List.map_cons, List.mem_cons, ih']
      tauto

theorem orZero_of_ne_nan (x : JSNum) (hx : x ≠ JSNum.nan) : orZero x = x := by
  cases x with
  | fin q =>
    by_cases hq : q = 0
    · simp [orZero, JSNum.truthy, hq]
    · simp [orZero, JSNum.truthy, hq]
  | nan => exact absurd rfl hx
  | posInf => rfl
  | negInf => rfl

theorem orZero_ne_nan (x : JSNum) : orZero x ≠ JSNum.nan := by
  cases x with
  | fin q =>
    by_cases hq : q = 0
    · simp [orZero, JSNum.truthy, hq]
    · simp [orZero, JSNum.truthy, hq]
  | nan => simp [orZero, JSNum.truthy]
  | posInf => simp [orZero, JSNum.truthy]
  | negInf => simp [orZero, JSNum.truthy]

theorem orZero_eq (x : JSNum) :
    orZero x = if x = JSNum.nan then JSNum.fin 0 else x := by
  by_cases hx : x = JSNum.nan
  · subst hx
    simp [orZero, JSNum.truthy]
  · simp [hx, orZero_of_ne_nan x hx]

theorem NoNaN_handleChange (fd : FormData) (name value : String) (h : NoNaN fd) :
    NoNaN (handleChange fd name value) := by
  intro k v hk
  by_cases hkn : k = name
  · subst hkn
    unfold handleChange at hk
    rw [Obj.get_set_same] at hk
    injection hk with hk
    subst hk
    exact orZero_ne_nan _
  · unfold handleChange at hk
    rw [Obj.get_set_other _ _ _ _ hkn] at hk
    exact h k v hk

theorem NoNaN_foldl (events : List (String × String)) (fd : FormData) (h : NoNaN fd) :
    NoNaN (events.foldl (fun fd e => handleChange fd e.1 e.2) fd) := by
  induction events generalizing fd with
  | nil => exact h
  | cons e es ih => exact ih _ (NoNaN_handleChange fd e.1 e.2 h)

theorem NoNaN_editAll (events : List (String × String)) : NoNaN (editAll events) :=
  NoNaN_foldl events [] (by intro k v hk; simp [Obj.get] at hk)

theorem buildPayload_eq (fd : FormData) :
    buildPayload fd =
      [("pressure", orZeroU (Obj.get fd "pressure")),
       ("dewpoint", orZeroU (Obj.get fd "dewpoint")),
       ("humidity", orZeroU (Obj.get fd "humidity")),
       ("cloud", orZeroU (Obj.get fd "cloud")),
       ("sunshine", orZeroU (Obj.get fd "sunshine")),
       ("winddirection", orZeroU (Obj.get fd "winddirection")),
       ("windspeed", orZeroU (Obj.get fd "windspeed"))] := by
  simp [buildPayload, REQUIRED_FEATURES, Obj.set]

theorem orZeroU_of_NoNaN (fd : FormData) (h : NoNaN fd) (k : String) :
    orZeroU (Obj.get fd k) = (Obj.get fd k).getD (JSNum.fin 0) := by
  cases hg : Obj.get fd k with
  | none => rfl
  | some v => simp [orZeroU, orZero_of_ne_nan v (h k v hg)]

/-! ## Facts about `handleSubmit` -/

theorem handleSubmit_of_throw (rt : Runtime) (s : State) (o : FetchOutcome) (err : JSError)
    (h : tryBlock rt o = Except.error err) :
    handleSubmit rt s o =
      { formData := s.formData, predictionResult := Json.null, isLoading := false,
        error := some (if err.message != "" then err.message else connectFallback) } := by
  simp [handleSubmit, handleSubmitUpdates, submitResolveUpdates, h, submitStartUpdates,
    catchBlock, finallyBlock, applyUpdates, applyUpdate]

theorem handleSubmit_of_return (rt : Runtime) (s : State) (o : FetchOutcome) (data : Json)
    (h : tryBlock rt o = Except.ok [Update.setPredictionResult data]) :
    handleSubmit rt s o =
      { formData := s.formData, predictionResult := data, isLoading := false, error := none } := by
  simp [handleSubmit, handleSubmitUpdates, submitResolveUpdates, h, submitStartUpdates,
    finallyBlock, applyUpdates, applyUpdate]

theorem tryBlock_throws_of_not_ok (rt : Runtime) (status : Nat) (body : Except JSError Json)
    (hs : responseOk status = false) : ∃ err, tryBlock rt (FetchOutcome.response status body) =
      Except.error err := by
  unfold tryBlock
  simp only [hs, Bool.not_false, if_true]
  cases body with
  | error e => exact ⟨e, rfl⟩
  | ok errorData =>
    show ∃ err, (match readField rt errorData "error" with
      | Except.error e => Except.error e
      | Except.ok none => Except.error ⟨httpErrorMessage status⟩
      | Except.ok (some v) =>
        if v.truthy then
          match newError rt v with
          | Except.error e => Except.error e
          | Except.ok err => Except.error err
        else Except.error ⟨httpErrorMessage status⟩) = Except.error err
    cases readField rt errorData "error" with
    | error e => exact ⟨e, rfl⟩
    | ok fld =>
      cases fld with
      | none => exact ⟨_, rfl⟩
      | some v =>
        cases hv : v.truthy with
        | false => exact ⟨⟨httpErrorMessage status⟩, by simp [hv]⟩
        | true =>
          cases hn : newError rt v with
          | error e => exact ⟨e, by simp [hv, hn]⟩
          | ok e => exact ⟨e, by simp [hv, hn]⟩

theorem httpErrorMessage_ne_empty (status : Nat) : httpErrorMessage status ≠ "" := by
  intro h
  have h2 := congrArg String.length h
  simp [httpErrorMessage, String.length_append] at h2
  have h3 : "HTTP Error: ".length = 12 := by decide
  omega

/-! ## Facts about the transition system -/

theorem applyUpdates_append (s : State) (us vs : List Update) :
    applyUpdates s (us ++ vs) = applyUpdates (applyUpdates s us) vs := by
  simp [applyUpdates, List.foldl_append]

theorem resolve_clears_loading (rt : Runtime) (s : State) (o : FetchOutcome) :
    (applyUpdates s (submitResolveUpdates rt o)).isLoading = false := by
  unfold submitResolveUpdates
  rw [applyUpdates_append]
  rfl

theorem start_updates (s : State) :
    applyUpdates s submitStartUpdates =
      { formData := s.formData, predictionResult := Json.null, isLoading := true,
        error := none } := rfl

theorem Settled_initial : Settled Component.initial := by
  constructor
  · rfl
  · intro h
    cases h

theorem Settled_step (rt : Runtime) (c c' : Component) (e : Event) (hc : Settled c)
    (hstep : step rt c e = some c') : Settled c' := by
  obtain ⟨hlen, hstale⟩ := hc
  cases e with
  | change name value =>
    simp only [step, Option.some.injEq] at hstep
    subst hstep
    exact ⟨hlen, hstale⟩
  | submit =>
    unfold step at hstep
    by_cases hl : c.view.isLoading = true
    · simp [submitDisabled, hl] at hstep
    · simp only [submitDisabled, hl, if_false, Option.some.injEq, Bool.false_eq_true] at hstep
      subst hstep
      have h0 : c.inFlight.length = 0 := by simpa [hl] using hlen
      constructor
      · simp [start_updates, h0]
      · intro _
        simp [start_updates]
  | resolve o =>
    unfold step at hstep
    cases hq : c.inFlight with
    | nil => simp [hq] at hstep
    | cons q rest =>
      simp only [hq, Option.some.injEq] at hstep
      subst hstep
      have hload : c.view.isLoading = true := by
        by_contra hl
        simp [hl, hq] at hlen
      have hrest : rest.length = 0 := by
        simp [hload, hq] at hlen
        simp [hlen]
      constructor
      · simp [resolve_clears_loading, hrest]
      · intro h
        simp [resolve_clears_loading] at h

theorem Settled_run (rt : Runtime) (es : List Event) (c c' : Component) (hc : Settled c)
    (hrun : run rt c es = some c') : Settled c' := by
  induction es generalizing c with
  | nil =>
    simp only [run, Option.some.injEq] at hrun
    subst hrun
    exact hc
  | cons e es ih =>
    unfold run at hrun
    cases hs : step rt c e with
    | none => simp [hs] at hrun
    | some c1 =>
      simp only [hs] at hrun
      exact ih c1 (Settled_step rt c c1 e hc hs) hrun

theorem Settled_of_reachable (rt : Runtime) (c : Component) (h : Reachable rt c) : Settled c := by
  obtain ⟨es, hes⟩ := h
  exact Settled_run rt es _ c Settled_initial hes

/-! ## The claims -/

/-- C1: after any sequence of edit events, the payload built by `handleSubmit` has
exactly the seven `REQUIRED_FEATURES` names as keys, and each of them carries the
Form State's value for the name when there is one and `0` when there is none. -/
theorem payload_exactly_required_features (events : List (String × String)) :
    Obj.keys (buildPayload (editAll events)) = REQUIRED_FEATURES ∧
    (Obj.keys (buildPayload (editAll events))).length = 7 ∧
    ∀ f, f ∈ REQUIRED_FEATURES →
      Obj.get (buildPayload (editAll events)) f =
        some (match Obj.get (editAll events) f with
          | some v => v
          | none => JSNum.fin 0) := by
  have hn := NoNaN_editAll events
  have hv : ∀ k, orZeroU (Obj.get (editAll events) k) =
      (match Obj.get (editAll events) k with
        | some v => v
        | none => JSNum.fin 0) := by
    intro k
    rw [orZeroU_of_NoNaN _ hn k]
    cases Obj.get (editAll events) k <;> rfl
  rw [buildPayload_eq]
  refine ⟨rfl, rfl, ?_⟩
  intro f hf
  simp only [REQUIRED_FEATURES, List.mem_cons, List.mem_singleton, List.not_mem_nil,
    or_false] at hf
  rcases hf with rfl | rfl | rfl | rfl | rfl | rfl | rfl <;> simp [Obj.get, hv]

/-- C1, on the edits `humidity := "71.5"`, `cloud := "abc"`: the payload
carries `71.5` for `humidity` and `0` for the untouched `pressure`. -/
theorem payload_exactly_required_features_witness :
    Obj.get (buildPayload (editAll [("humidity", "71.5"), ("cloud", "abc")])) "pressure" =
      some (match Obj.get (editAll [("humidity", "71.5"), ("cloud", "abc")]) "pressure" with
        | some v => v
        | none => JSNum.fin 0) :=
  (payload_exactly_required_features [("humidity", "71.5"), ("cloud", "abc")]).2.2
    "pressure" (by decide)

/-- C2: `handleChange` changes the Form State at the edited name only. The value
stored there is the number `parseFloat` reads from the text (for a well-formed
decimal numeral, the double nearest to the number it denotes) and `0` when the
text has no number to read; every other name reads as before, and the keys are
the old ones together with the edited name. -/
theorem handleChange_updates_one_name (prevData : FormData) (name value : String) :
    Obj.get (handleChange prevData name value) name =
      some (if parseFloat value = JSNum.nan then JSNum.fin 0 else parseFloat value) ∧
    (∀ d : Decimal, d.wellFormed = true → value = d.text →
      parseFloat value = roundDouble d.value ∧
      Obj.get (handleChange prevData name value) name = some (roundDouble d.value)) ∧
    (parseFloat value = JSNum.nan →
      Obj.get (handleChange prevData name value) name = some (JSNum.fin 0)) ∧
    (∀ k, k ≠ name → Obj.get (handleChange prevData name value) k = Obj.get prevData k) ∧
    (∀ k, k ∈ Obj.keys (handleChange prevData name value) ↔ k ∈ Obj.keys prevData ∨ k = name) := by
  have hget : Obj.get (handleChange prevData name value) name =
      some (if parseFloat value = JSNum.nan then JSNum.fin 0 else parseFloat value) := by
    unfold handleChange
    rw [Obj.get_set_same, orZero_eq]
  refine ⟨hget, ?_, ?_, ?_, ?_⟩
  · intro d hd hv
    have hp : parseFloat value = roundDouble d.value := by
      rw [hv]
      exact parseFloat_decimal d hd
    refine ⟨hp, ?_⟩
    rw [hget, hp, if_neg (roundDouble_ne_nan _)]
  · intro hnan
    rw [hget, if_pos hnan]
  · intro k hk
    exact Obj.get_set_other _ _ _ _ hk
  · intro k
    exact Obj.mem_keys_set _ _ _ _

/-- C2, on the edit `humidity := "71.5"` of a form that holds `pressure`: the
stored value is the double nearest to `71.5`. -/
theorem handleChange_updates_one_name_witness :
    Obj.get (handleChange [("pressure", JSNum.fin 1013)] "humidity" "71.5") "humidity" =
      some (roundDouble (Decimal.value ⟨Sign.absent, [7, 1], true, [5], none⟩)) :=
  ((handleChange_updates_one_name [("pressure", JSNum.fin 1013)] "humidity" "71.5").2.1
    ⟨Sign.absent, [7, 1], true, [5], none⟩ (by decide) (by decide)).2

/-- C3 as stated fails: for `29%` the code's angle is the double
`52.199999999999996`, not `(29 / 100) * 180 = 52.2`. -/
theorem meter_angle_inexact_counterexample :
    (renderProbabilityMeter sampleRuntime (some (Json.str "29%"))).toOption.map Meter.fillAngle =
      some (JSNum.fin (7346496892148121 / 140737488355328)) ∧
    rotationAngle "29%" = JSNum.fin (7346496892148121 / 140737488355328) ∧
    rotationAngle "29%" ≠ JSNum.fin (29 / 100 * 180) := by
  decide!

/-- C3, amended: for a decimal numeral `P` followed by a percent sign,
`renderProbabilityMeter` turns both layers by `(P / 100) * 180` computed in
double precision: `P` is rounded to the nearest double, and so are the quotient
and the product. `62.20%` gives the double written `111.96`, `0.00%` gives `0`,
`100.00%` gives `180`, and `P` in `0..100` gives an angle in `0..180`. -/
theorem meter_angle_of_percent (rt : Runtime) (d : Decimal) (h : d.wellFormed = true) :
    renderProbabilityMeter rt (some (Json.str d.percentText)) =
      Except.ok
        { fillAngle := ((roundDouble d.value).div (JSNum.fin 100)).mul (JSNum.fin 180)
          needleAngle := ((roundDouble d.value).div (JSNum.fin 100)).mul (JSNum.fin 180)
          value := d.percentText } ∧
    (0 ≤ d.value → d.value ≤ 100 →
      ∃ a : ℚ, rotationAngle d.percentText = JSNum.fin a ∧ 0 ≤ a ∧ a ≤ 180) ∧
    rotationAngle "62.20%" = roundDouble (11196 / 100) ∧
    rotationAngle "0.00%" = JSNum.fin 0 ∧
    rotationAngle "100.00%" = JSNum.fin 180 := by
  have hr := rotationAngle_decimal d h
  refine ⟨?_, ?_, by decide!, by decide!, by decide!⟩
  · show Except.ok
      { fillAngle := rotationAngle d.percentText, needleAngle := rotationAngle d.percentText,
        value := d.percentText : Meter } = _
    rw [hr]
  · intro h0 h100
    exact rotationAngle_range d h h0 h100

/-- C3 amended, on the numeral `62.20`: the meter for `62.20%`. -/
theorem meter_angle_of_percent_witness :
    renderProbabilityMeter sampleRuntime
        (some (Json.str (Decimal.percentText ⟨Sign.absent, [6, 2], true, [2, 0], none⟩))) =
      Except.ok
        { fillAngle :=
            ((roundDouble (Decimal.value ⟨Sign.absent, [6, 2], true, [2, 0], none⟩)).div
              (JSNum.fin 100)).mul (JSNum.fin 180)
          needleAngle :=
            ((roundDouble (Decimal.value ⟨Sign.absent, [6, 2], true, [2, 0], none⟩)).div
              (JSNum.fin 100)).mul (JSNum.fin 180)
          value := Decimal.percentText ⟨Sign.absent, [6, 2], true, [2, 0], none⟩ } :=
  (meter_angle_of_percent sampleRuntime ⟨Sign.absent, [6, 2], true, [2, 0], none⟩
    (by decide)).1

/-- C4 as stated fails: with status 500 and body `{"error": ""}` the `error` field
is present, yet Error State is the status message and not the field. -/
theorem http_error_empty_field_counterexample :
    Obj.get [("error", Json.str "")] "error" = some (Json.str "") ∧
    (handleSubmit sampleRuntime State.initial
      (FetchOutcome.response 500 (Except.ok (Json.obj [("error", Json.str "")])))).error =
        some "HTTP Error: 500" ∧
    (handleSubmit sampleRuntime State.initial
      (FetchOutcome.response 500 (Except.ok (Json.obj [("error", Json.str "")])))).error ≠
        some "" :=
  ⟨rfl, by decide, by decide⟩

/-- C4, amended: for a non-success status and a body that is a JSON object, Error
State is the body's `error` field when that field is a non-empty string, and is
`HTTP Error: <status>` when the field is absent or falsy; Prediction Result is
unset whatever the body. Status 500 with `{"error": "model unavailable"}` leaves
Error State equal to `model unavailable`. -/
theorem http_error_state (rt : Runtime) (s : State) (status : Nat)
    (props : List (String × Json)) (hs : responseOk status = false) :
    (∀ msg, Obj.get props "error" = some (Json.str msg) → msg ≠ "" →
      (handleSubmit rt s (FetchOutcome.response status (Except.ok (Json.obj props)))).error =
        some msg) ∧
    (Obj.get props "error" = none →
      (handleSubmit rt s (FetchOutcome.response status (Except.ok (Json.obj props)))).error =
        some (httpErrorMessage status)) ∧
    (∀ v, Obj.get props "error" = some v → v.truthy = false →
      (handleSubmit rt s (FetchOutcome.response status (Except.ok (Json.obj props)))).error =
        some (httpErrorMessage status)) ∧
    (∀ body, (handleSubmit rt s (FetchOutcome.response status body)).predictionResult =
      Json.null) ∧
    (handleSubmit rt s (FetchOutcome.response 500
      (Except.ok (Json.obj [("error", Json.str "model unavailable")])))).error =
        some "model unavailable" ∧
    httpErrorMessage 500 = "HTTP Error: 500" := by
  have hhttp : ∀ o, tryBlock rt o = Except.error ⟨httpErrorMessage status⟩ →
      (handleSubmit rt s o).error = some (httpErrorMessage status) := by
    intro o ho
    rw [handleSubmit_of_throw rt s o _ ho]
    simp [httpErrorMessage_ne_empty]
  refine ⟨?_, ?_, ?_, ?_, ?_, by decide⟩
  · intro msg hf hne
    have ht : tryBlock rt (FetchOutcome.response status (Except.ok (Json.obj props))) =
        Except.error ⟨msg⟩ := by
      simp [tryBlock, hs, readField, hf, Json.truthy, hne, newError]
    rw [handleSubmit_of_throw rt s _ _ ht]
    simp [hne]
  · intro hf
    apply hhttp
    simp [tryBlock, hs, readField, hf]
  · intro v hf hv
    apply hhttp
    simp [tryBlock, hs, readField, hf, hv]
  · intro body
    obtain ⟨err, he⟩ := tryBlock_throws_of_not_ok rt status body hs
    rw [handleSubmit_of_throw rt s _ _ he]
  · have ht : tryBlock rt (FetchOutcome.response 500
        (Except.ok (Json.obj [("error", Json.str "model unavailable")]))) =
        Except.error ⟨"model unavailable"⟩ := by
      simp [tryBlock, responseOk, readField, Obj.get, Json.truthy, newError]
    rw [handleSubmit_of_throw rt s _ _ ht]
    simp

/-- C4 amended, on status 404 with the body `{}`: Error State is the status
message. -/
theorem http_error_state_witness :
    responseOk 404 = false ∧
    (handleSubmit sampleRuntime State.initial
      (FetchOutcome.response 404 (Except.ok (Json.obj [])))).error =
        some (httpErrorMessage 404) :=
  ⟨by decide, (http_error_state sampleRuntime State.initial 404 [] (by decide)).2.1 rfl⟩

/-- C5 as stated fails: a rejection whose error carries the message
`Failed to fetch` leaves that message in Error State, not the fallback. -/
theorem network_failure_counterexample :
    (handleSubmit sampleRuntime State.initial
      (FetchOutcome.rejected ⟨"Failed to fetch"⟩)).error = some "Failed to fetch" ∧
    (handleSubmit sampleRuntime State.initial
      (FetchOutcome.rejected ⟨"Failed to fetch"⟩)).error ≠
        some "Could not connect to the prediction server." := by
  decide

/-- C5, amended: when the request yields no response, Error State is the
message carried by the failure when it is non-empty and the fallback
`Could not connect to the prediction server.` otherwise; Prediction Result is
unset. -/
theorem network_failure_error_state (rt : Runtime) (s : State) (err : JSError) :
    (err.message ≠ "" →
      (handleSubmit rt s (FetchOutcome.rejected err)).error = some err.message) ∧
    (err.message = "" →
      (handleSubmit rt s (FetchOutcome.rejected err)).error =
        some "Could not connect to the prediction server.") ∧
    (handleSubmit rt s (FetchOutcome.rejected err)).predictionResult = Json.null := by
  rw [handleSubmit_of_throw rt s (FetchOutcome.rejected err) err rfl]
  refine ⟨?_, ?_, rfl⟩
  · intro h
    simp [h]
  · intro h
    simp [h, connectFallback]

/-- C5 amended, on a rejection with an empty message: Error State is the
fallback. -/
theorem network_failure_error_state_witness :
    (handleSubmit sampleRuntime State.initial (FetchOutcome.rejected ⟨""⟩)).error =
      some "Could not connect to the prediction server." :=
  (network_failure_error_state sampleRuntime State.initial ⟨""⟩).2.1 rfl

/-- C6: from any prior state, a success status with a JSON body leaves the
parsed body itself in Prediction Result and leaves Error State unset; the body
`{"will_rain": "Yes", "probability_of_rain": "80.00%"}` is stored as is and is
drawn with the rain styling. -/
theorem success_stores_body (rt : Runtime) (s : State) (status : Nat) (data : Json)
    (hs : responseOk status = true) :
    (handleSubmit rt s (FetchOutcome.response status (Except.ok data))).predictionResult =
      data ∧
    (handleSubmit rt s (FetchOutcome.response status (Except.ok data))).error = none ∧
    (handleSubmit rt s (FetchOutcome.response 200 (Except.ok rainBody))).predictionResult =
      rainBody ∧
    ∃ box, renderResult rt
        (handleSubmit rt s (FetchOutcome.response 200 (Except.ok rainBody))).predictionResult =
          Except.ok (Drawn.box box) ∧
      box.className = "result-box animate rain-bg" := by
  have ht : tryBlock rt (FetchOutcome.response status (Except.ok data)) =
      Except.ok [Update.setPredictionResult data] := by
    simp [tryBlock, hs]
  have h200 : tryBlock rt (FetchOutcome.response 200 (Except.ok rainBody)) =
      Except.ok [Update.setPredictionResult rainBody] := by
    simp [tryBlock, responseOk]
  rw [handleSubmit_of_return rt s _ data ht, handleSubmit_of_return rt s _ rainBody h200]
  refine ⟨rfl, rfl, rfl, ?_⟩
  exact ⟨_, rfl, by decide⟩

/-- C6, on status 201 with the body `true`, from a state holding an earlier
error. -/
theorem success_stores_body_witness :
    responseOk 201 = true ∧
    (handleSubmit sampleRuntime
      { formData := [], predictionResult := Json.null, isLoading := false,
        error := some "HTTP Error: 500" }
      (FetchOutcome.response 201 (Except.ok (Json.bool true)))).error = none :=
  ⟨by decide,
    (success_stores_body sampleRuntime
      { formData := [], predictionResult := Json.null, isLoading := false,
        error := some "HTTP Error: 500" } 201 (Json.bool true) (by decide)).2.1⟩

/-- C7: however the request settles (a response of any status, with a body that
parses or does not, or no response at all), the loading flag is false when
`handleSubmit` completes, and `setIsLoading(false)` is its last setter call. -/
theorem loading_cleared_last (rt : Runtime) (s : State) (outcome : FetchOutcome) :
    (handleSubmit rt s outcome).isLoading = false ∧
    ∃ before, handleSubmitUpdates rt outcome = before ++ [Update.setIsLoading false] := by
  constructor
  · unfold handleSubmit handleSubmitUpdates
    rw [applyUpdates_append]
    exact resolve_clears_loading rt _ outcome
  · refine ⟨submitStartUpdates ++ (match tryBlock rt outcome with
      | Except.ok us => us
      | Except.error err => catchBlock err), ?_⟩
    simp [handleSubmitUpdates, submitResolveUpdates, finallyBlock]

/-- C8: in every reachable state, a set loading flag means that Error State and
Prediction Result are both unset; and from any state, starting a submission sets
the flag and clears both. -/
theorem loading_excludes_stale (rt : Runtime) (c : Component) (h : Reachable rt c) :
    (c.view.isLoading = true →
      c.view.error = none ∧ c.view.predictionResult = Json.null) ∧
    ∀ s : State,
      (applyUpdates s submitStartUpdates).isLoading = true ∧
      (applyUpdates s submitStartUpdates).error = none ∧
      (applyUpdates s submitStartUpdates).predictionResult = Json.null :=
  ⟨(Settled_of_reachable rt c h).2, fun _ => ⟨rfl, rfl, rfl⟩⟩

/-- C8, on the state right after the first submit. -/
theorem loading_excludes_stale_witness :
    Reachable sampleRuntime Component.afterFirstSubmit ∧
    (Component.afterFirstSubmit.view.isLoading = true →
      Component.afterFirstSubmit.view.error = none ∧
      Component.afterFirstSubmit.view.predictionResult = Json.null) :=
  ⟨⟨[Event.submit], rfl⟩,
    (loading_excludes_stale sampleRuntime Component.afterFirstSubmit ⟨[Event.submit], rfl⟩).1⟩

/-- C9: the submit button is disabled exactly when the loading flag is set, so
no submit step leaves a loading state, and no reachable state has more than one
request in flight. -/
theorem submit_blocked_while_loading (rt : Runtime) :
    (∀ s : State, submitDisabled s = true ↔ s.isLoading = true) ∧
    (∀ c : Component, c.view.isLoading = true → step rt c Event.submit = none) ∧
    (∀ c : Component, c.view.isLoading = false → ∃ c', step rt c Event.submit = some c') ∧
    (∀ c : Component, Reachable rt c → c.inFlight.length ≤ 1) := by
  refine ⟨fun _ => Iff.rfl, ?_, ?_, ?_⟩
  · intro c hc
    simp [step, submitDisabled, hc]
  · intro c hc
    refine ⟨{ view := applyUpdates c.view submitStartUpdates
              inFlight := c.inFlight ++ [buildPayload c.view.formData] }, ?_⟩
    simp [step, submitDisabled, hc]
  · intro c hc
    have h := (Settled_of_reachable rt c hc).1
    rw [h]
    split <;> decide

/-- C9, on the state right after the first submit: a second submit is not
possible. -/
theorem submit_blocked_while_loading_witness :
    step sampleRuntime Component.afterFirstSubmit Event.submit = none :=
  (submit_blocked_while_loading sampleRuntime).2.1 Component.afterFirstSubmit rfl

/-- C10 as stated fails: the success body `{"will_rain": "Yes"}`, which lacks
`probability_of_rain`, is stored as Prediction Result, and rendering it raises. -/
theorem render_missing_probability_counterexample :
    (handleSubmit sampleRuntime State.initial
      (FetchOutcome.response 200
        (Except.ok (Json.obj [("will_rain", Json.str "Yes")])))).predictionResult =
      Json.obj [("will_rain", Json.str "Yes")] ∧
    renderResult sampleRuntime (Json.obj [("will_rain", Json.str "Yes")]) =
      Except.error ⟨"Cannot read properties of undefined"⟩ :=
  ⟨rfl, rfl⟩

/-- C10, amended: for every success response body stored as Prediction Result
that is a JSON object whose `probability_of_rain` is a string and whose
`will_rain` is missing or is a value React accepts as a child (not an object,
nor a list holding one), whether or not the string holds a number, rendering
completes without raising: both layers turn by the angle computed from the
string, which is `NaN` when no number can be read, and the styling is the
no-rain variant when `will_rain` is missing. Rendering a falsy body completes
without raising as well. -/
theorem render_completes_on_string_probability (rt : Runtime) (s : State) (status : Nat)
    (props : List (String × Json)) (p : String) (hs : responseOk status = true)
    (hp : Obj.get props "probability_of_rain" = some (Json.str p))
    (hw : validChildU (Obj.get props "will_rain") = true) :
    (∃ box, renderResult rt
        (handleSubmit rt s
          (FetchOutcome.response status (Except.ok (Json.obj props)))).predictionResult =
          Except.ok (Drawn.box box) ∧
      box.meter.fillAngle = rotationAngle p ∧
      box.meter.needleAngle = rotationAngle p ∧
      box.className = "result-box animate " ++
        (if isYes (Obj.get props "will_rain") then "rain-bg" else "no-rain-bg") ∧
      (Obj.get props "will_rain" = none → box.className = "result-box animate no-rain-bg") ∧
      (parseFloat ⟨removeFirstPercent p.data⟩ = JSNum.nan →
        box.meter.fillAngle = JSNum.nan ∧ box.meter.needleAngle = JSNum.nan)) ∧
    ∀ data : Json, data.truthy = false →
      ∃ drawn, renderResult rt
        (handleSubmit rt s (FetchOutcome.response status (Except.ok data))).predictionResult =
          Except.ok drawn := by
  have ht : ∀ data, tryBlock rt (FetchOutcome.response status (Except.ok data)) =
      Except.ok [Update.setPredictionResult data] := by
    intro data
    simp [tryBlock, hs]
  constructor
  · rw [handleSubmit_of_return rt s _ _ (ht _)]
    refine ⟨{ className := "result-box animate " ++
                (if isYes (Obj.get props "will_rain") then "rain-bg" else "no-rain-bg")
              verdict := Obj.get props "will_rain"
              meter := { fillAngle := rotationAngle p, needleAngle := rotationAngle p,
                         value := p } }, ?_, rfl, rfl, rfl, ?_, ?_⟩
    · simp [renderResult, Json.truthy, readField, hp, renderProbabilityMeter, hw]
    · intro hwn
      simp [hwn, isYes]
    · intro hn
      simp [rotationAngle, hn, JSNum.div, JSNum.mul]
  · intro data hd
    rw [handleSubmit_of_return rt s _ _ (ht _)]
    exact ⟨drawFalsy data, by simp [renderResult, hd]⟩

/-- C10 amended, on status 200 with the body `{"probability_of_rain": "soon"}`:
rendering completes, with the no-rain styling and a `NaN` angle. -/
theorem render_completes_on_string_probability_witness :
    responseOk 200 = true ∧
    ∃ box, renderResult sampleRuntime
        (handleSubmit sampleRuntime State.initial
          (FetchOutcome.response 200
            (Except.ok (Json.obj [("probability_of_rain", Json.str "soon")])))).predictionResult =
          Except.ok (Drawn.box box) ∧
      box.className = "result-box animate no-rain-bg" ∧
      box.meter.fillAngle = JSNum.nan := by
  obtain ⟨box, h1, _, _, _, h5, h6⟩ :=
    (render_completes_on_string_probability sampleRuntime State.initial 200
      [("probability_of_rain", Json.str "soon")] "soon" (by decide) rfl rfl).1
  exact ⟨by decide, box, h1, h5 rfl, (h6 (by decide)).1⟩

end Rainfall
